import Mathlib

set_option maxRecDepth 100000

/-!
Verification development for the AI pull-request review pipeline
(`.github/scripts/ai_review.py`).

The script's pure core is embedded shallowly: Python strings become
`List Char` (for the response-normalization layer) or `String` (for the
rendering layer), Python's `json.loads` becomes an executable JSON parser
over the integral fragment actually exchanged by the pipeline, and the
side-effecting publish step becomes a function from an explicit
environment (tokens, commit references, platform responses) to a record
of the observable outcome: what was queried, what was submitted, what
fallback comment was posted, and the process exit status.
-/

/-- JSON values as produced by `json.loads` for the review-response wire
format: objects, arrays, strings, integers, booleans and null.  (The
pipeline's wire contract never uses fractional numbers, so numbers are
modelled as integers.) -/
inductive Json where
  | null : Json
  | bool (b : Bool) : Json
  | num (n : Int) : Json
  | str (s : String) : Json
  | arr (elts : List Json) : Json
  | obj (entries : List (String × Json)) : Json

/-- Characters treated as whitespace by Python's `str.strip`. -/
def pyWs (c : Char) : Bool :=
  c = ' ' || c = '\t' || c = '\n' || c = '\r' || c = '\x0b' || c = '\x0c'

/-- Python `str.strip()`: drop leading and trailing whitespace. -/
def pyStrip (s : List Char) : List Char :=
  ((s.dropWhile pyWs).reverse.dropWhile pyWs).reverse

/-- Python `str.strip()` on `String`s (used for environment values). -/
def pyStripS (s : String) : String :=
  String.mk (pyStrip s.toList)

/-- First index at which `pat` occurs in `s`, if any. -/
def findFrom (pat : List Char) : List Char → Option Nat
  | [] => if pat.isEmpty then some 0 else none
  | c :: s' =>
    if pat.isPrefixOf (c :: s') then some 0
    else (findFrom pat s').map (· + 1)

/-- Python `s.find(pat, start)`: lowest index `≥ start` where `pat`
occurs, `-1` when there is none. -/
def pyFind (s pat : List Char) (start : Nat) : Int :=
  match findFrom pat (s.drop start) with
  | some i => ((start + i : Nat) : Int)
  | none => -1

/-- Python slice `s[a:b]` for a non-negative start `a`; a negative `b`
counts from the end of the string, exactly as in Python. -/
def pySlice (s : List Char) (a : Nat) (b : Int) : List Char :=
  let n := s.length
  let b' : Nat := if b < 0 then n - (-b).toNat else min b.toNat n
  (s.take b').drop a

/-- JSON inter-token whitespace. -/
def jsonWs (c : Char) : Bool :=
  c = ' ' || c = '\t' || c = '\n' || c = '\r'

/-- Skip JSON whitespace. -/
def skipWs (s : List Char) : List Char := s.dropWhile jsonWs

/-- ASCII digit test. -/
def isDigitCh (c : Char) : Bool := '0' ≤ c && c ≤ '9'

/-- Accumulate a digit list into a natural number. -/
def digitsToNat : List Char → Nat → Nat
  | [], acc => acc
  | c :: r, acc => digitsToNat r (acc * 10 + (c.toNat - '0'.toNat))

/-- Parse a JSON natural-number literal at the head of the input
(rejecting a redundant leading zero, as `json.loads` does). -/
def parseNatToken (s : List Char) : Option (Nat × List Char) :=
  let ds := s.takeWhile isDigitCh
  let rest := s.dropWhile isDigitCh
  match ds with
  | [] => none
  | d :: tl =>
    if d = '0' && !tl.isEmpty then none
    else some (digitsToNat (d :: tl) 0, rest)

/-- Parse a JSON integer literal (optional minus sign) at the head. -/
def parseIntToken (s : List Char) : Option (Int × List Char) :=
  match s with
  | '-' :: r => (parseNatToken r).map (fun p => (-(p.1 : Int), p.2))
  | _ => (parseNatToken s).map (fun p => ((p.1 : Int), p.2))

/-- Parse the body of a JSON string literal (after the opening quote),
returning the decoded characters and the input after the closing quote.
Handles the single-character escapes; control characters are rejected as
in strict `json.loads`. -/
def parseStringBody : Nat → List Char → Option (List Char × List Char)
  | 0, _ => none
  | _, [] => none
  | fuel + 1, c :: r =>
    if c = '"' then some ([], r)
    else if c = '\\' then
      match r with
      | [] => none
      | e :: r2 =>
        let esc : Option Char :=
          if e = '"' then some '"'
          else if e = '\\' then some '\\'
          else if e = '/' then some '/'
          else if e = 'n' then some '\n'
          else if e = 't' then some '\t'
          else if e = 'r' then some '\r'
          else if e = 'b' then some '\x08'
          else if e = 'f' then some '\x0c'
          else none
        match esc with
        | none => none
        | some ch =>
          match parseStringBody fuel r2 with
          | some (cs, rest) => some (ch :: cs, rest)
          | none => none
    else if c.toNat < 32 then none
    else
      match parseStringBody fuel r with
      | some (cs, rest) => some (c :: cs, rest)
      | none => none

mutual

/-- Fuel-indexed parser for a single JSON value at the head of the
input (leading whitespace allowed), returning the value and the rest. -/
def parseJ : Nat → List Char → Option (Json × List Char)
  | 0, _ => none
  | fuel + 1, s =>
    match skipWs s with
    | [] => none
    | c :: r =>
      if c = '{' then
        match skipWs r with
        | '}' :: r2 => some (.obj [], r2)
        | _ => parseObjMembers fuel r []
      else if c = '[' then
        match skipWs r with
        | ']' :: r2 => some (.arr [], r2)
        | _ => parseArrElems fuel r []
      else if c = '"' then
        (parseStringBody (r.length + 1) r).map (fun p => (.str (String.mk p.1), p.2))
      else if c = 't' then
        if ('r' :: 'u' :: 'e' :: []).isPrefixOf r then some (.bool true, r.drop 3) else none
      else if c = 'f' then
        if ('a' :: 'l' :: 's' :: 'e' :: []).isPrefixOf r then some (.bool false, r.drop 4) else none
      else if c = 'n' then
        if ('u' :: 'l' :: 'l' :: []).isPrefixOf r then some (.null, r.drop 3) else none
      else if c = '-' || isDigitCh c then
        (parseIntToken (c :: r)).map (fun p => (.num p.1, p.2))
      else none

/-- Parse the members of a JSON object (input positioned after `{` or
after a separating comma). -/
def parseObjMembers : Nat → List Char → List (String × Json) → Option (Json × List Char)
  | 0, _, _ => none
  | fuel + 1, s, acc =>
    match skipWs s with
    | '"' :: r =>
      match parseStringBody (r.length + 1) r with
      | none => none
      | some (kcs, r2) =>
        match skipWs r2 with
        | ':' :: r3 =>
          match parseJ fuel r3 with
          | none => none
          | some (v, r4) =>
            match skipWs r4 with
            | ',' :: r5 => parseObjMembers fuel r5 (acc ++ [(String.mk kcs, v)])
            | '}' :: r5 => some (.obj (acc ++ [(String.mk kcs, v)]), r5)
            | _ => none
        | _ => none
    | _ => none

/-- Parse the elements of a JSON array (input positioned after `[` or
after a separating comma). -/
def parseArrElems : Nat → List Char → List Json → Option (Json × List Char)
  | 0, _, _ => none
  | fuel + 1, s, acc =>
    match parseJ fuel s with
    | none => none
    | some (v, r) =>
      match skipWs r with
      | ',' :: r2 => parseArrElems fuel r2 (acc ++ [v])
      | ']' :: r2 => some (.arr (acc ++ [v]), r2)
      | _ => none

end

/-- Python `json.loads`: parse one JSON document, allowing surrounding
whitespace and nothing else; `none` models `json.JSONDecodeError`. -/
def jsonLoads (s : List Char) : Option Json :=
  match parseJ (2 * s.length + 4) s with
  | some (j, rest) => if skipWs rest = [] then some j else none
  | none => none


/-- The fenced-block extraction step of `parse_review`: when the raw
response contains a ```json fence, take the text between the fence tag
and the next fence and strip it; otherwise, when it contains any ```
fence, do the same for that fence; otherwise use the raw text as is.
Faithful to the source's `str.find`/slice arithmetic, including the
`end = -1` slice when a closing fence is missing. -/
def extract_json_text (review_text : List Char) : List Char :=
  if 0 ≤ pyFind review_text "```json".toList 0 then
    let start := (pyFind review_text "```json".toList 0).toNat + 7
    pyStrip (pySlice review_text start (pyFind review_text "```".toList start))
  else if 0 ≤ pyFind review_text "```".toList 0 then
    let start := (pyFind review_text "```".toList 0).toNat + 3
    pyStrip (pySlice review_text start (pyFind review_text "```".toList start))
  else review_text

/-- `parse_review`: extract the JSON document from the raw model
response and parse it.  A `json.JSONDecodeError` is modelled as
`.error` carrying the raw response text, which the caller keeps for
diagnostic output. -/
def parse_review (review_text : List Char) : Except (List Char) Json :=
  match jsonLoads (extract_json_text review_text) with
  | some j => .ok j
  | none => .error review_text

/-- Python truthiness of a JSON value (`if x:`). -/
def truthy : Json → Bool
  | .null => false
  | .bool b => b
  | .num n => decide (n ≠ 0)
  | .str s => decide (s ≠ "")
  | .arr xs => !xs.isEmpty
  | .obj kvs => !kvs.isEmpty

/-- Look a key up in an object's entry list (first match). -/
def jLookup (entries : List (String × Json)) (k : String) : Option Json :=
  match entries with
  | [] => none
  | (k', v) :: rest => if k' = k then some v else jLookup rest k

/-- Dictionary access `d.get(k)` on an issue or result object.  The
pipeline's records are JSON objects; on a non-object this returns
`none` (the source would raise `AttributeError`, a case the theorems
exclude by shape hypotheses or concrete inputs). -/
def Json.get? (j : Json) (k : String) : Option Json :=
  match j with
  | .obj entries => jLookup entries k
  | _ => none

/-- Dictionary access with default, `d.get(k, dflt)`. -/
def Json.getD (j : Json) (k : String) (dflt : Json) : Json :=
  match j.get? k with
  | some v => v
  | none => dflt

/-- Whether the value is a JSON object. -/
def Json.isObj : Json → Bool
  | .obj _ => true
  | _ => false

/-- Truthiness of `d.get(k)` (missing key → `None` → falsy). -/
def tGet (i : Json) (k : String) : Bool :=
  match i.get? k with
  | some v => truthy v
  | none => false

/-- Elements of a JSON array.  This accessor is used for the `issues`
sequence, an array in the wire contract; iterating a non-list `issues`
value in the source raises per-element (`AttributeError`/`TypeError`),
a path the theorems exclude by shape hypotheses or concrete inputs. -/
def jsonList : Json → List Json
  | .arr xs => xs
  | _ => []

/-- Python `str(x)` as used by f-string interpolation of scalar JSON
fields.  The pipeline's wire contract makes every interpolated field a
string; container reprs are abbreviated. -/
def pyStr : Json → String
  | .str s => s
  | .num n => toString n
  | .bool true => "True"
  | .bool false => "False"
  | .null => "None"
  | .arr _ => "[...]"
  | .obj _ => "\x7b...\x7d"

/-- Python `str.upper()`. -/
def pyUpper (s : String) : String := String.mk (s.toList.map Char.toUpper)

/-- The severity-marker table of `_inline_comment_body`:
`{'critical': '🚨', 'high': '⚠️', 'medium': '⚡', 'low': 'ℹ️'}.get(sev, 'ℹ️')`. -/
def sevEmoji (v : Json) : String :=
  match v with
  | .str s =>
    if s = "critical" then "🚨"
    else if s = "high" then "⚠️"
    else if s = "medium" then "⚡"
    else if s = "low" then "ℹ️"
    else "ℹ️"
  | _ => "ℹ️"

/-- Everything `_inline_comment_body` renders after the severity
marker: title, severity, category, description, optional suggestion
and optional code example. -/
def inline_comment_rest (issue : Json) : String :=
  let body := " **" ++ pyStr (issue.getD "title" .null) ++ "** ("
    ++ pyStr (issue.getD "severity" .null) ++ ") — *"
    ++ pyStr (issue.getD "category" .null) ++ "*\n\n"
  let body := body ++ pyStr (issue.getD "description" .null) ++ "\n"
  let body := if tGet issue "suggestion" then
      body ++ "\n**Suggestion:** " ++ pyStr (issue.getD "suggestion" .null) ++ "\n"
    else body
  let body := if tGet issue "code_example" then
      body ++ "\n```swift\n" ++ pyStr (issue.getD "code_example" .null) ++ "\n```\n"
    else body
  body

/-- `_inline_comment_body`: markdown body for one issue. -/
def inline_comment_body (issue : Json) : String :=
  sevEmoji (issue.getD "severity" .null) ++ inline_comment_rest issue

/-- The partition of issues that carry a truthy `line` and a truthy
`file` (posted as inline comments). -/
def inline_issues (issues : List Json) : List Json :=
  issues.filter (fun i => tGet i "line" && tGet i "file")

/-- The complementary partition: issues without a truthy `line`+`file`
anchor, folded into the review body. -/
def issues_without_line (issues : List Json) : List Json :=
  issues.filter (fun i => !(tGet i "line" && tGet i "file"))

/-- Errors the publish step can raise past the JSON-decode handler. -/
inductive PyErr where
  | valueError : PyErr
  | typeError : PyErr
  | attributeError : PyErr

/-- Python `severity.upper()` on the JSON severity value: defined for
strings only; any other value raises `AttributeError`, exactly as the
source's attribute access does. -/
def pyUpperE : Json → Except PyErr String
  | .str s => .ok (pyUpper s)
  | _ => .error .attributeError

/-- Python iteration `for note in positive` over the positive-notes
value: a list yields its elements, a string its one-character
substrings, a dict its keys; numbers and booleans are not iterable and
raise `TypeError`.  (`None` is falsy, so the guarded iteration never
reaches it.) -/
def pyIterNotes : Json → Except PyErr (List Json)
  | .arr xs => .ok xs
  | .str s => .ok (s.toList.map (fun c => Json.str (String.mk [c])))
  | .obj kvs => .ok (kvs.map (fun kv => Json.str kv.1))
  | .num _ => .error .typeError
  | .bool _ => .error .typeError
  | .null => .ok []

/-- `_review_body_summary`: the top-level review body with the overall
summary, upper-cased severity, the unanchored issues and the positive
notes.  A non-string `severity` raises `AttributeError` from
`severity.upper()`, and a truthy non-iterable `positive_notes` raises
`TypeError` from the notes loop, as in the source; both propagate as
`.error`. -/
def review_body_summary (review_data : Json) (issues_wo : List Json) :
    Except PyErr String :=
  let summary := review_data.getD "summary" (.str "")
  let severity := review_data.getD "severity" (.str "low")
  let positive := review_data.getD "positive_notes" (.arr [])
  match pyUpperE severity with
  | .error e => .error e
  | .ok sevUp =>
    let body := "## 🤖 AI Code Review\n\n**Summary:** " ++ pyStr summary
      ++ "\n\n**Overall Severity:** " ++ sevUp ++ "\n"
    let body := if !issues_wo.isEmpty then
        body ++ "\n### Issues (no specific line)\n\n"
          ++ String.join (issues_wo.map (fun i => inline_comment_body i ++ "\n"))
      else body
    match (if truthy positive then pyIterNotes positive else .ok []) with
    | .error e => .error e
    | .ok notes =>
      let body := if truthy positive then
          body ++ "\n### ✅ Positive Notes\n\n"
            ++ String.join (notes.map (fun note => "- " ++ pyStr note ++ "\n"))
        else body
      .ok (body ++ "\n---\n*This review was performed by Claude AI. Please verify all suggestions.*")

/-- Python `int(x)` as applied to an issue's `line` value: numbers pass
through (booleans count as integers), numeric strings convert, any
other string raises `ValueError`, and non-scalar values raise
`TypeError`. -/
def pyInt : Json → Except PyErr Int
  | .num n => .ok n
  | .bool b => .ok (if b then 1 else 0)
  | .str s =>
    match
      (match pyStrip s.toList with
       | '-' :: ds => if !ds.isEmpty && ds.all isDigitCh then some (-(digitsToNat ds 0 : Int)) else none
       | '+' :: ds => if !ds.isEmpty && ds.all isDigitCh then some ((digitsToNat ds 0 : Int)) else none
       | ds => if !ds.isEmpty && ds.all isDigitCh then some ((digitsToNat ds 0 : Int)) else none)
    with
    | some n => .ok n
    | none => .error .valueError
  | _ => .error .typeError

/-- One record of the `comments` array of the review payload. -/
structure InlineComment where
  path : Json
  line : Int
  side : String
  body : String

/-- The review payload submitted to the platform: body, event type,
inline comments and the optional pinned commit id. -/
structure ReviewSubmission where
  body : String
  event : String
  comments : List InlineComment
  commit_id : Option String

/-- Observable record of a completed publish step. -/
structure PostReport where
  shaQueried : Bool
  shaWarned : Bool
  submission : ReviewSubmission
  fallback : Option String
  criticalCount : Nat

/-- Result of the publish step: either the early return when no token
is configured, or a completed run with its report. -/
inductive PostOutcome where
  | noToken : PostOutcome
  | completed (r : PostReport) : PostOutcome

/-- The environment and platform behaviour the publish step interacts
with: the GitHub token, the `HEAD_SHA` environment value, the output of
the `gh pr view` head-commit query, whether the review submission is
accepted, and the HTTP status code returned on rejection.  The target
identifiers (`PR_NUMBER`, `REPO`) only parametrize the endpoint and are
assumed present and well-formed. -/
structure Env where
  token : String
  head_sha_env : String
  gh_head_ref : String
  submit_ok : Bool
  http_code : Nat

/-- The `comments` payload construction loop: for each inline issue,
convert its `line` with `int(...)` (which can raise), skip lines below
1, and otherwise emit the `{path, line, side, body}` record. -/
def buildComments : List Json → Except PyErr (List InlineComment)
  | [] => .ok []
  | i :: rest =>
    match pyInt (i.getD "line" .null) with
    | .error e => .error e
    | .ok line =>
      match buildComments rest with
      | .error e => .error e
      | .ok rest' =>
        if line < 1 then .ok rest'
        else .ok (⟨i.getD "file" .null, line, "RIGHT", inline_comment_body i⟩ :: rest')

/-- The issues whose `severity` equals `'critical'` (the exit gate of
`post_review_comment`). -/
def criticalOf (issues : List Json) : List Json :=
  issues.filter (fun i =>
    match i.get? "severity" with
    | some (.str s) => s = "critical"
    | _ => false)

/-- The body of the fallback comment posted when the review submission
is rejected: the fallback banner plus the full review body. -/
def fallback_text (review_data : Json) (http_code : Nat) (review_body : String) : String :=
  "## 🤖 AI Code Review (fallback — inline review failed)\n\n**Summary:** "
    ++ pyStr (review_data.getD "summary" (.str ""))
    ++ "\n\n**Overall Severity:** " ++ pyUpper (pyStr (review_data.getD "severity" (.str "low")))
    ++ "\n\nSee full details below. (Posting inline comments failed: " ++ toString http_code ++ ")\n"
    ++ "\n\n" ++ review_body

/-- `post_review_comment`: read the issues, return early when no token
is configured, resolve the head commit when `HEAD_SHA` is absent,
partition the issues, render the review body, build the inline comments
payload (which can raise `ValueError`), submit once, degrade to the
fallback comment on rejection, and count the critical issues for the
exit gate. -/
def post_review_comment (review_data : Json) (env : Env) : Except PyErr PostOutcome :=
  if !review_data.isObj then .error .attributeError
  else
    let issues := jsonList (review_data.getD "issues" (.arr []))
    if env.token = "" then .ok .noToken
    else
      let sha0 := pyStripS env.head_sha_env
      let sha1 := if sha0 = "" then pyStripS env.gh_head_ref else sha0
      let head_sha : Option String := if sha1 = "" then none else some sha1
      match review_body_summary review_data (issues_without_line issues) with
      | .error e => .error e
      | .ok review_body =>
        match buildComments (inline_issues issues) with
        | .error e => .error e
        | .ok comments =>
          .ok (.completed
            ⟨decide (sha0 = ""), decide (sha1 = ""),
             ⟨review_body, "COMMENT", comments, head_sha⟩,
             (if env.submit_ok then none
              else some (fallback_text review_data env.http_code review_body)),
             (criticalOf issues).length⟩)

/-- The file-type allow-list of `get_changed_files`. -/
def changed_files_filter (files : List String) : List String :=
  files.filter (fun f => ".swift".toList.isSuffixOf f.toList || ".md".toList.isSuffixOf f.toList)

/-- The network interactions a run can perform. -/
inductive NetCall where
  | llmRequest : NetCall
  | ghHeadShaQuery : NetCall
  | reviewSubmit : NetCall
  | fallbackComment : NetCall

/-- The network calls the publish step performs, read off its result:
the optional head-commit query, the single review submission, and the
fallback comment when the submission was rejected.  A `ValueError`
abort happens after the optional query and before the submission. -/
def postCalls (env : Env) : Except PyErr PostOutcome → List NetCall
  | .error _ => if pyStripS env.head_sha_env = "" then [.ghHeadShaQuery] else []
  | .ok .noToken => []
  | .ok (.completed r) =>
    (if r.shaQueried then [.ghHeadShaQuery] else [])
      ++ [.reviewSubmit]
      ++ (if r.fallback.isSome then [.fallbackComment] else [])

/-- Result of one run of `main` after the context has been collected:
either the early successful return when no files of interest changed,
the reported parse failure (raw text kept, exit 1), or the publish
step's result. -/
inductive MainResult where
  | noChanges : MainResult
  | parseFailed (raw : List Char) : MainResult
  | posted (r : Except PyErr PostOutcome) : MainResult

/-- `main` from the point the changed-file set is known: an empty set
returns immediately (no LLM request, no publishing); otherwise the LLM
response is normalized and published, with `json.JSONDecodeError`
reported.  Returns the network calls performed and the result. -/
def main_run (changed_files : List String) (review_text : List Char) (env : Env) :
    List NetCall × MainResult :=
  if changed_files.isEmpty then ([], .noChanges)
  else
    match parse_review review_text with
    | .error raw => ([.llmRequest], .parseFailed raw)
    | .ok review_data =>
      let r := post_review_comment review_data env
      (.llmRequest :: postCalls env r, .posted r)

/-- Process exit status of a run: `some 0`/`some 1` for a normal
termination, `none` for an uncaught exception (a crash with a
traceback). -/
def exitCodeOf : MainResult → Option Nat
  | .noChanges => some 0
  | .parseFailed _ => some 1
  | .posted (.error _) => none
  | .posted (.ok .noToken) => some 0
  | .posted (.ok (.completed r)) => if 0 < r.criticalCount then some 1 else some 0


/-- Whether `needle` occurs as a substring of `hay`. -/
def strContains (hay needle : String) : Bool :=
  (findFrom needle.toList hay.toList).isSome

/-- The fallback comment body of a completed publish step, if any. -/
def fallbackOf (e : Except PyErr PostOutcome) : Option String :=
  match e with
  | .ok (.completed r) => r.fallback
  | _ => none

/-- The inline comments of the submitted review payload, if the publish
step completed. -/
def commentsOf (e : Except PyErr PostOutcome) : List InlineComment :=
  match e with
  | .ok (.completed r) => r.submission.comments
  | _ => []

/-- Substring test on an optional string (`false` when absent). -/
def optContains (o : Option String) (needle : String) : Bool :=
  match o with
  | some h => strContains h needle
  | none => false

/-- Whether the publish step completed (was not skipped and did not
raise). -/
def completedOk (e : Except PyErr PostOutcome) : Bool :=
  match e with
  | .ok (.completed _) => true
  | _ => false

/-- Environment with a token, a pre-resolved commit and an accepting
platform. -/
def envOk : Env := ⟨"ghp-token", "abc123", "", true, 0⟩

/-- Environment with a token and a pre-resolved commit whose review
submission is rejected with HTTP 422. -/
def envRej : Env := ⟨"ghp-token", "abc123", "", false, 422⟩

/-- Environment without a GitHub token. -/
def envNoTok : Env := ⟨"", "abc123", "", true, 0⟩

/-- An issue carrying a file and line anchor (used for the fallback
content-loss analysis); its description is the marker text `Zd`. -/
def iC1 : Json := .obj
  [("file", .str "a.swift"), ("line", .num 5), ("severity", .str "high"),
   ("category", .str "security"), ("title", .str "Zt"), ("description", .str "Zd")]

/-- A review result with one inline-anchored issue. -/
def dataC1 : Json := .obj
  [("summary", .str "S"), ("severity", .str "high"),
   ("issues", .arr [iC1]), ("positive_notes", .arr [])]

/-- An issue whose `line` is negative (and whose `file` is non-empty). -/
def iNeg : Json := .obj
  [("file", .str "a.swift"), ("line", .num (-1)), ("severity", .str "low"),
   ("category", .str "testing"), ("title", .str "t"), ("description", .str "d")]

/-- An issue with a positive line and non-empty file. -/
def iPos : Json := .obj
  [("file", .str "a.swift"), ("line", .num 5), ("severity", .str "low"),
   ("category", .str "testing"), ("title", .str "t"), ("description", .str "d")]

/-- Well-formed JSON response lacking the `issues` list. -/
def t3 : List Char := "\x7b\"summary\": \"ok\"\x7d".toList

/-- An issue with critical severity. -/
def iCrit : Json := .obj
  [("file", .str "a.swift"), ("line", .num 2), ("severity", .str "critical"),
   ("category", .str "security"), ("title", .str "t"), ("description", .str "d")]

/-- A review result containing a critical issue (and overall severity
`low`). -/
def dataCrit : Json := .obj
  [("summary", .str "S"), ("severity", .str "low"),
   ("issues", .arr [iCrit]), ("positive_notes", .arr [])]

/-- An issue whose severity is outside the closed enumeration. -/
def iBad5 : Json := .obj
  [("severity", .str "bananas"), ("category", .str "security"),
   ("title", .str "t"), ("description", .str "d")]

/-- A review result containing the out-of-enumeration issue. -/
def dataBad5 : Json := .obj
  [("summary", .str "S"), ("severity", .str "low"),
   ("issues", .arr [iBad5]), ("positive_notes", .arr [])]

/-- Wrap a text in a fenced block tagged as JSON, as the claim about
fence extraction describes: ```json, a newline, the text, a newline,
and a closing ```. -/
def wrapJson (t : List Char) : List Char :=
  "```json\n".toList ++ t ++ "\n```".toList

/-- A JSON text whose string payload contains fence markers. -/
def t6 : List Char := "\x7b\"a\": \"``` 1 ```\"\x7d".toList

/-- No infix of the text parses as JSON: `jsonLoads` fails on every
contiguous substring. -/
def noJsonSub (t : List Char) : Bool :=
  t.tails.all (fun suf => suf.inits.all (fun s => (jsonLoads s).isNone))

/-- A well-formed response whose issue has the non-numeric line
`"abc"`. -/
def textBadLine : List Char :=
  ("\x7b\"summary\": \"s\", \"severity\": \"low\", \"issues\": [\x7b\"file\": \"a.swift\", "
    ++ "\"line\": \"abc\", \"severity\": \"high\", \"title\": \"t\", \"description\": \"d\"\x7d], "
    ++ "\"positive_notes\": []\x7d").toList

/-- The parsed form of `textBadLine`. -/
def dataBadLine : Json := .obj
  [("summary", .str "s"), ("severity", .str "low"),
   ("issues", .arr [.obj
     [("file", .str "a.swift"), ("line", .str "abc"), ("severity", .str "high"),
      ("title", .str "t"), ("description", .str "d")]]),
   ("positive_notes", .arr [])]



/-- Environment with a token but no `HEAD_SHA` value and an empty
head-commit query result. -/
def envNoSha : Env := ⟨"ghp-token", "", "", true, 0⟩

/-- Whether the completed publish step queried the pull request for the
head commit. -/
def shaQueriedOf (e : Except PyErr PostOutcome) : Bool :=
  match e with
  | .ok (.completed r) => r.shaQueried
  | _ => false

/-- Whether the completed publish step warned that no head commit could
be resolved. -/
def shaWarnedOf (e : Except PyErr PostOutcome) : Bool :=
  match e with
  | .ok (.completed r) => r.shaWarned
  | _ => false

/-- The pinned commit id of the submitted review payload, if any. -/
def commitIdOf (e : Except PyErr PostOutcome) : Option String :=
  match e with
  | .ok (.completed r) => r.submission.commit_id
  | _ => none

/-- Claim C1 (code evaluated at the failing input): with one
file/line-anchored issue and a rejected review submission, the publish
step completes, posts a fallback comment and makes no second submission
attempt, but the fallback body contains neither the issue's rendered
inline body nor even its description text — the inline-anchored finding
is silently lost, contrary to the claim that the fallback contains the
rendered descriptions of all issues. -/
theorem c1_fallback_loses_inline_content :
    completedOk (post_review_comment dataC1 envRej) = true
    ∧ (fallbackOf (post_review_comment dataC1 envRej)).isSome = true
    ∧ postCalls envRej (post_review_comment dataC1 envRej) = [.reviewSubmit, .fallbackComment]
    ∧ (commentsOf (post_review_comment dataC1 envRej)).any (fun c => strContains c.body "Zd") = true
    ∧ optContains (fallbackOf (post_review_comment dataC1 envRej)) "Zd" = false
    ∧ optContains (fallbackOf (post_review_comment dataC1 envRej)) (inline_comment_body iC1) = false :=
  ⟨rfl, rfl, rfl, rfl, rfl, rfl⟩

/-- Claim C2, counterexample: an issue with a non-empty `file` and the
negative line `-1` lands in the inline set and not in the body-only
set, contrary to the claim that a negative line is treated as "no
anchor". -/
theorem c2_negative_line_counterexample :
    inline_issues [iNeg] = [iNeg] ∧ issues_without_line [iNeg] = [] :=
  ⟨rfl, rfl⟩

/-- Claim C3, counterexample: a well-formed JSON response lacking the
`issues` list parses successfully (no reported error) and the run exits
with status 0, not 1. -/
theorem c3_missing_issues_counterexample :
    parse_review t3 = .ok (.obj [("summary", .str "ok")])
    ∧ exitCodeOf (main_run ["f.swift"] t3 envOk).2 = some 0 :=
  ⟨rfl, rfl⟩

/-- Claim C4, counterexample: with a critical issue present but no
GitHub token configured, the publish step returns early and the process
exits with status 0, not the claimed failure status. -/
theorem c4_no_token_counterexample :
    post_review_comment dataCrit envNoTok = .ok .noToken
    ∧ (criticalOf (jsonList (dataCrit.getD "issues" (.arr [])))).length = 1
    ∧ exitCodeOf (.posted (post_review_comment dataCrit envNoTok)) = some 0 :=
  ⟨rfl, rfl, rfl⟩

/-- Claim C5, counterexample: an issue whose severity `"bananas"` is
outside the closed enumeration is admitted, rendered with the default
info marker, and the run completes with exit status 0 — it is silently
coerced, not treated as an error. -/
theorem c5_unknown_severity_counterexample :
    inline_comment_body iBad5 = "ℹ️ **t** (bananas) — *security*\n\nd\n"
    ∧ completedOk (post_review_comment dataBad5 envOk) = true
    ∧ exitCodeOf (.posted (post_review_comment dataBad5 envOk)) = some 0 :=
  ⟨rfl, rfl, rfl⟩

/-- Claim C6, counterexample: for the JSON text `{"a": "``` 1 ```"}`
(whose string payload contains fence markers), normalizing the
unwrapped text yields the JSON number 1 while normalizing the
```json-wrapped form fails, so the two normalizations disagree. -/
theorem c6_wrapped_counterexample :
    parse_review t6 = .ok (.num 1)
    ∧ parse_review (wrapJson t6) = .error (wrapJson t6) :=
  ⟨rfl, rfl⟩

/-- Claim C10: a well-formed parsed response whose issue carries the
truthy non-numeric line `"abc"` together with a non-empty file makes
the inline-payload integer conversion raise `ValueError`, which the
JSON-decode handler of `main` does not catch: the run aborts with an
uncaught exception. -/
theorem c10_nonnumeric_line_aborts :
    parse_review textBadLine = .ok dataBadLine
    ∧ post_review_comment dataBadLine envOk = .error .valueError
    ∧ (main_run ["f.swift"] textBadLine envOk).2 = .posted (.error .valueError)
    ∧ exitCodeOf (main_run ["f.swift"] textBadLine envOk).2 = none :=
  ⟨rfl, rfl, rfl, rfl⟩

/-- Claim C2 as amended: the partition is total and exclusive, but the
split is by Python truthiness of `line` and `file` — an issue goes to
the inline set exactly when both values are truthy (so a positive
integer line with a non-empty file is inline, an absent or zero line is
body-only, while a negative line with a non-empty file is also inline,
only to be skipped later during payload construction). -/
theorem c2_partition_amended (issues : List Json) (i : Json) (hm : i ∈ issues) :
    (i ∈ inline_issues issues ∨ i ∈ issues_without_line issues)
    ∧ ¬(i ∈ inline_issues issues ∧ i ∈ issues_without_line issues)
    ∧ ((tGet i "line" && tGet i "file") = true →
        i ∈ inline_issues issues ∧ i ∉ issues_without_line issues)
    ∧ ((tGet i "line" && tGet i "file") = false →
        i ∉ inline_issues issues ∧ i ∈ issues_without_line issues) := by
  cases h1 : tGet i "line" <;> cases h2 : tGet i "file" <;>
    simp [inline_issues, issues_without_line, List.mem_filter, hm, h1, h2]

/-- Witness for C2: a positive-line, non-empty-file issue is inline and
not body-only. -/
theorem c2_partition_amended_witness :
    iPos ∈ inline_issues [iPos] ∧ iPos ∉ issues_without_line [iPos] :=
  (c2_partition_amended [iPos] iPos (by simp)).2.2.1 (by decide)

/-- Claim C8: when the set of changed files of interest is empty, the
run ends immediately with exit status 0 and performs no network calls
(no LLM request, no head-commit query, no review submission, no
comment). -/
theorem c8_no_changed_files (paths : List String) (t : List Char) (env : Env)
    (h : changed_files_filter paths = []) :
    main_run (changed_files_filter paths) t env = ([], .noChanges)
    ∧ exitCodeOf (main_run (changed_files_filter paths) t env).2 = some 0 := by
  rw [h]
  exact ⟨rfl, rfl⟩

/-- Witness for C8: a changed set containing only a Python file filters
to nothing and the run is a silent success. -/
theorem c8_no_changed_files_witness :
    changed_files_filter ["pipeline.py"] = []
    ∧ main_run (changed_files_filter ["pipeline.py"]) "x".toList envOk = ([], .noChanges) := by
  have h := c8_no_changed_files ["pipeline.py"] "x".toList envOk rfl
  exact ⟨rfl, h.1⟩

/-- Claim C5 as amended: an issue whose severity is any string outside
the closed enumeration is not rejected — it is rendered with the
default info marker (silent coercion), and it still participates in
the issue partition like any other issue. -/
theorem c5_unknown_severity_amended (i : Json) (s : String)
    (hsev : i.get? "severity" = some (.str s))
    (hc : s ≠ "critical") (hh : s ≠ "high") (hm : s ≠ "medium") (hl : s ≠ "low") :
    inline_comment_body i = "ℹ️" ++ inline_comment_rest i
    ∧ (i ∈ inline_issues [i] ∨ i ∈ issues_without_line [i]) := by
  constructor
  · simp [inline_comment_body, Json.getD, hsev, sevEmoji, hc, hh, hm, hl]
  · cases h1 : tGet i "line" <;> cases h2 : tGet i "file"
    · right
      simp [issues_without_line, List.mem_filter, h1, h2]
    · right
      simp [issues_without_line, List.mem_filter, h1, h2]
    · right
      simp [issues_without_line, List.mem_filter, h1, h2]
    · left
      simp [inline_issues, List.mem_filter, h1, h2]

/-- Witness for C5: the severity `"bananas"` renders with the default
marker. -/
theorem c5_unknown_severity_amended_witness :
    inline_comment_body iBad5 = "ℹ️" ++ inline_comment_rest iBad5
    ∧ (iBad5 ∈ inline_issues [iBad5] ∨ iBad5 ∈ issues_without_line [iBad5]) :=
  c5_unknown_severity_amended iBad5 "bananas" rfl
    (by decide) (by decide) (by decide) (by decide)

/-- Claim C3 as amended: well-formed JSON lacking the `issues` list is
not a reported error — for a response object whose `severity` (if
present) is a string and whose `positive_notes` (if present) is a
list, the publish step treats the missing list as empty, submits a
review with no inline comments, and the run exits with status 0.  A
response object with a non-string `severity` instead aborts with an
uncaught `AttributeError` from `severity.upper()` — also not the
claimed reported-error-exit-1.  Only a JSON decoding failure is
reported with the raw text kept and exit status 1. -/
theorem c3_missing_issues_amended :
    (∀ (entries : List (String × Json)) (env : Env),
        jLookup entries "issues" = none → env.token ≠ "" →
        (jLookup entries "severity" = none
          ∨ ∃ s, jLookup entries "severity" = some (.str s)) →
        (jLookup entries "positive_notes" = none
          ∨ ∃ xs, jLookup entries "positive_notes" = some (.arr xs)) →
        completedOk (post_review_comment (.obj entries) env) = true
        ∧ commentsOf (post_review_comment (.obj entries) env) = []
        ∧ exitCodeOf (.posted (post_review_comment (.obj entries) env)) = some 0)
    ∧ (post_review_comment (.obj [("severity", .num 5)]) envOk = .error .attributeError
        ∧ exitCodeOf (.posted (post_review_comment (.obj [("severity", .num 5)]) envOk)) = none)
    ∧ (∀ t : List Char, jsonLoads (extract_json_text t) = none →
        parse_review t = .error t ∧ exitCodeOf (.parseFailed t) = some 1) := by
  refine ⟨?_, ⟨rfl, rfl⟩, ?_⟩
  · intro entries env hni htok hsev hpos
    have hsev' : ∃ u, pyUpperE (Json.getD (.obj entries) "severity" (.str "low")) = .ok u := by
      rcases hsev with h | ⟨s, h⟩ <;>
        simp [Json.getD, Json.get?, h, pyUpperE]
    have hpos' : ∃ ns,
        (if truthy (Json.getD (.obj entries) "positive_notes" (.arr []))
         then pyIterNotes (Json.getD (.obj entries) "positive_notes" (.arr []))
         else .ok []) = .ok ns := by
      rcases hpos with h | ⟨xs, h⟩
      · simp [Json.getD, Json.get?, h, truthy]
      · cases htr : truthy (Json.getD (.obj entries) "positive_notes" (.arr [])) <;>
          simp [Json.getD, Json.get?, h, pyIterNotes, htr]
    obtain ⟨u, hu⟩ := hsev'
    obtain ⟨ns, hns⟩ := hpos'
    have hgd : Json.getD (.obj entries) "issues" (.arr []) = .arr [] := by
      simp [Json.getD, Json.get?, hni]
    simp [post_review_comment, Json.isObj, hgd, htok, jsonList,
      inline_issues, issues_without_line, buildComments, criticalOf,
      review_body_summary, hu, hns,
      completedOk, commentsOf, exitCodeOf]
  · intro t h
    exact ⟨by simp [parse_review, h], rfl⟩

/-- Witness for C3: a response with only a summary completes the
publish step with no inline comments; a non-JSON response is the
reported failure with exit 1. -/
theorem c3_missing_issues_amended_witness :
    completedOk (post_review_comment (.obj [("summary", .str "ok")]) envOk) = true
    ∧ parse_review "zzz".toList = .error "zzz".toList := by
  have h1 := (c3_missing_issues_amended.1 [("summary", .str "ok")] envOk rfl (by decide)
      (Or.inl rfl) (Or.inl rfl)).1
  have h2 := (c3_missing_issues_amended.2.2 "zzz".toList rfl).1
  exact ⟨h1, h2⟩

/-- Claim C4 as amended: whenever the publish step runs to completion
(a token is configured and the payload construction does not raise),
the process exits with status 1 exactly when some issue's severity is
`"critical"` — independently of the overall severity field and of the
submission being accepted or rejected — after recording the count of
critical issues; but when no token is configured the publish step
returns early and the run exits with status 0 even if critical issues
are present. -/
theorem c4_critical_exit_amended :
    (∀ (data : Json) (env : Env) (r : PostReport),
        post_review_comment data env = .ok (.completed r) →
        r.criticalCount = (criticalOf (jsonList (data.getD "issues" (.arr [])))).length
        ∧ (exitCodeOf (.posted (.ok (.completed r))) = some 1
            ↔ criticalOf (jsonList (data.getD "issues" (.arr []))) ≠ [])
        ∧ (exitCodeOf (.posted (.ok (.completed r))) = some 0
            ↔ criticalOf (jsonList (data.getD "issues" (.arr []))) = []))
    ∧ (∀ (data : Json) (env : Env), data.isObj = true → env.token = "" →
        post_review_comment data env = .ok .noToken
        ∧ exitCodeOf (.posted (post_review_comment data env)) = some 0) := by
  constructor
  · intro data env r h
    simp only [post_review_comment] at h
    split at h
    · simp at h
    · split at h
      · simp at h
      · split at h
        · simp at h
        · split at h
          · simp at h
          · simp only [Except.ok.injEq] at h
            injection h with h1
            subst h1
            refine ⟨rfl, ?_, ?_⟩
            · simp [exitCodeOf, Nat.pos_iff_ne_zero, List.length_eq_zero]
            · simp [exitCodeOf, Nat.pos_iff_ne_zero, List.length_eq_zero]
  · intro data env hobj htok
    constructor
    · simp [post_review_comment, hobj, htok]
    · simp [post_review_comment, hobj, htok, exitCodeOf]

/-- Witness for C4: with a token configured and a critical issue
present, the run exits with status 1. -/
theorem c4_critical_exit_amended_witness :
    exitCodeOf (.posted (post_review_comment dataCrit envOk)) = some 1 := by
  obtain ⟨r, hr⟩ : ∃ r, post_review_comment dataCrit envOk = .ok (.completed r) := ⟨_, rfl⟩
  have h := (c4_critical_exit_amended.1 dataCrit envOk r hr).2.1
  rw [hr]
  refine h.mpr ?_
  rw [show criticalOf (jsonList (dataCrit.getD "issues" (.arr []))) = [iCrit] from rfl]
  exact List.cons_ne_nil _ _

/-- Claim C9: when `HEAD_SHA` is not supplied (empty after stripping)
and the publish step completes, the head commit was resolved by
querying the pull request before submission; and if that query also
returned an empty result, the warning was emitted and the review
payload was still submitted, only without the pinned `commit_id`
field. -/
theorem c9_head_sha_resolution (data : Json) (env : Env) (r : PostReport)
    (hsha : pyStripS env.head_sha_env = "")
    (hpost : post_review_comment data env = .ok (.completed r)) :
    r.shaQueried = true
    ∧ (pyStripS env.gh_head_ref = "" →
        r.shaWarned = true ∧ r.submission.commit_id = none) := by
  simp only [post_review_comment] at hpost
  split at hpost
  · simp at hpost
  · split at hpost
    · simp at hpost
    · split at hpost
      · simp at hpost
      · split at hpost
        · simp at hpost
        · simp only [Except.ok.injEq] at hpost
          injection hpost with h1
          subst h1
          refine ⟨by simp [hsha], fun hgh => ⟨by simp [hsha, hgh], by simp [hsha, hgh]⟩⟩

/-- Witness for C9: with no `HEAD_SHA` and an empty query result, the
publish step queried, warned, and submitted without a commit id. -/
theorem c9_head_sha_resolution_witness :
    shaQueriedOf (post_review_comment dataC1 envNoSha) = true
    ∧ shaWarnedOf (post_review_comment dataC1 envNoSha) = true
    ∧ commitIdOf (post_review_comment dataC1 envNoSha) = none := by
  obtain ⟨r, hr⟩ : ∃ r, post_review_comment dataC1 envNoSha = .ok (.completed r) := ⟨_, rfl⟩
  have h := c9_head_sha_resolution dataC1 envNoSha r rfl hr
  refine ⟨?_, ?_, ?_⟩ <;> rw [hr] <;>
    simp [shaQueriedOf, shaWarnedOf, commitIdOf, h.1, (h.2 rfl).1, (h.2 rfl).2]

/-- Stripping whitespace yields a contiguous substring of the input. -/
theorem pyStrip_substring (l : List Char) : pyStrip l <:+: l := by
  unfold pyStrip
  have h2 : (l.dropWhile pyWs).reverse.dropWhile pyWs <:+ (l.dropWhile pyWs).reverse :=
    List.dropWhile_suffix pyWs
  have h3 : ((l.dropWhile pyWs).reverse.dropWhile pyWs).reverse <+: l.dropWhile pyWs := by
    have h4 := Iff.mpr List.reverse_prefix h2
    rwa [List.reverse_reverse] at h4
  exact h3.isInfix.trans (List.dropWhile_suffix pyWs).isInfix

/-- A Python slice is a contiguous substring of the input. -/
theorem pySlice_substring (s : List Char) (a : Nat) (b : Int) : pySlice s a b <:+: s := by
  unfold pySlice
  exact (List.drop_suffix a _).isInfix.trans ( List.take_prefix _ s).isInfix

/-- The fence-extraction step returns a contiguous substring of the raw
response text in every branch. -/
theorem extract_json_text_substring (t : List Char) : extract_json_text t <:+: t := by
  unfold extract_json_text
  split
  · exact (pyStrip_substring _).trans (pySlice_substring _ _ _)
  · split
    · exact (pyStrip_substring _).trans (pySlice_substring _ _ _)
    · exact List.infix_refl t

/-- Claim C7: when no contiguous substring of the raw response parses
as JSON, normalization is the reported parse failure — the raw text is
kept for diagnostics, no exception escapes, no silently empty result is
produced, and the run exits with status 1. -/
theorem c7_no_json_reported (t : List Char) (h : noJsonSub t = true)
    (files : List String) (env : Env) (hne : files.isEmpty = false) :
    parse_review t = .error t
    ∧ (main_run files t env).2 = .parseFailed t
    ∧ exitCodeOf (main_run files t env).2 = some 1 := by
  obtain ⟨l₁, l₂, hsplit⟩ := extract_json_text_substring t
  have hsuf : extract_json_text t ++ l₂ <:+ t := ⟨l₁, by rw [← List.append_assoc]; exact hsplit⟩
  have hpre : extract_json_text t <+: extract_json_text t ++ l₂ := List.prefix_append _ _
  have hnone : jsonLoads (extract_json_text t) = none := by
    have h1 := List.all_eq_true.mp h _ ((List.mem_tails _ _).mpr hsuf)
    have h2 := List.all_eq_true.mp h1 _ ((List.mem_inits _ _).mpr hpre)
    simpa using h2
  refine ⟨by simp [parse_review, hnone], ?_, ?_⟩
  · simp [main_run, hne, parse_review, hnone]
  · simp [main_run, hne, parse_review, hnone, exitCodeOf]

/-- Witness for C7: the text `abc` has no JSON content anywhere and is
reported as a parse failure with exit status 1. -/
theorem c7_no_json_reported_witness :
    noJsonSub "abc".toList = true
    ∧ parse_review "abc".toList = .error "abc".toList
    ∧ exitCodeOf (main_run ["A.swift"] "abc".toList envOk).2 = some 1 := by
  have h := c7_no_json_reported "abc".toList rfl ["A.swift"] envOk rfl
  exact ⟨rfl, h.1, h.2.2⟩

/-- When the pattern is a prefix, the first occurrence is at index 0. -/
theorem findFrom_of_head_match (pat s : List Char) (h : pat.isPrefixOf s = true) :
    findFrom pat s = some 0 := by
  cases s with
  | nil =>
    cases pat with
    | nil => rfl
    | cons c p => simp [List.isPrefixOf] at h
  | cons c s' =>
    simp [findFrom, h]

/-- `findFrom` finds nothing exactly when the pattern is not a
contiguous substring. -/
theorem findFrom_eq_none_iff (pat s : List Char) :
    findFrom pat s = none ↔ ¬ pat <:+: s := by
  induction s with
  | nil =>
    cases pat with
    | nil => simp [findFrom]
    | cons c p => simp [findFrom]
  | cons c s' ih =>
    cases h : pat.isPrefixOf (c :: s') with
    | true =>
      have hpf := Iff.mp List.isPrefixOf_iff_prefix h
      simp [findFrom, h, List.infix_cons_iff, hpf]
    | false =>
      have hp : ¬ pat <+: (c :: s') := fun hc => by
        have hpf := Iff.mpr List.isPrefixOf_iff_prefix hc
        simp [hpf] at h
      simp [findFrom, h, Option.map_eq_none', ih, List.infix_cons_iff, hp]

/-- Extending a pattern that does not occur still does not occur. -/
theorem findFrom_extend_none (pat ext s : List Char)
    (h : findFrom pat s = none) : findFrom (pat ++ ext) s = none := by
  rw [findFrom_eq_none_iff] at h ⊢
  exact fun hinf => h ((List.prefix_append pat ext).isInfix.trans hinf)

/-- Appending a newline and a fence to fence-free text puts the first
fence occurrence exactly one past the end of the text. -/
theorem findFrom_fence_marker (t : List Char) (h : findFrom "```".toList t = none) :
    findFrom "```".toList (t ++ '\n' :: "```".toList) = some (t.length + 1) := by
  induction t with
  | nil => rfl
  | cons c t' ih =>
    have h' : findFrom "```".toList t' = none := by
      rw [findFrom_eq_none_iff] at h ⊢
      exact fun hi => h (List.infix_cons hi)
    have hnp : "```".toList.isPrefixOf (c :: (t' ++ '\n' :: "```".toList)) = false := by
      rw [findFrom_eq_none_iff] at h
      cases hp : "```".toList.isPrefixOf (c :: (t' ++ '\n' :: "```".toList)) with
      | false => rfl
      | true =>
        exfalso
        rw [ List.isPrefixOf_iff_prefix] at hp
        obtain ⟨rest, heq⟩ := hp
        cases t' with
        | nil =>
          injection heq with h1 heq'
          injection heq' with h2 _
          exact absurd h2 (by decide)
        | cons d t'' =>
          cases t'' with
          | nil =>
            injection heq with h1 heq'
            injection heq' with h2 heq''
            injection heq'' with h3 _
            exact absurd h3 (by decide)
          | cons e t3 =>
            apply h
            injection heq with h1 heq'
            injection heq' with h2 heq''
            injection heq'' with h3 _
            refine (show ("```".toList <+: c :: d :: e :: t3) from ?_).isInfix
            exact ⟨t3, by rw [← h1, ← h2, ← h3]; rfl⟩
    rw [List.cons_append]
    simp only [findFrom, hnp]
    rw [ih h']
    simp [Nat.add_comm]

/-- Surrounding a text with one newline on each side does not change
its stripped form: the added newlines are absorbed into the
whitespace runs that `strip` removes. -/
theorem pyStrip_nl_pad (t : List Char) :
    pyStrip ('\n' :: (t ++ ['\n'])) = pyStrip t := by
  unfold pyStrip
  rw [List.dropWhile_cons_of_pos (show pyWs '\n' = true from rfl)]
  rw [List.dropWhile_append]
  cases hu : (t.dropWhile pyWs).isEmpty with
  | true =>
    have hnil : t.dropWhile pyWs = [] := by
      cases hcase : t.dropWhile pyWs with
      | nil => rfl
      | cons a l => rw [hcase] at hu; simp at hu
    rw [if_pos rfl, hnil]
    rfl
  | false =>
    rw [if_neg (by simp)]
    rw [List.reverse_append]
    simp only [List.reverse_cons, List.reverse_nil, List.nil_append, List.singleton_append]
    rw [List.dropWhile_cons_of_pos (show pyWs '\n' = true from rfl)]

/-- The wrapped text decomposes after the 7-character fence tag. -/
theorem wrapJson_decomp (t : List Char) :
    wrapJson t = "```json".toList ++ ('\n' :: (t ++ '\n' :: "```".toList)) := by
  show "```json\n".toList ++ t ++ "\n```".toList = _
  rw [show "```json\n".toList = "```json".toList ++ ['\n'] from rfl,
      show "\n```".toList = '\n' :: "```".toList from rfl]
  simp

/-- Dropping the fence tag of the wrapped text. -/
theorem wrapJson_drop7 (t : List Char) :
    (wrapJson t).drop 7 = '\n' :: (t ++ '\n' :: "```".toList) := by
  rw [wrapJson_decomp]
  exact List.drop_left' rfl

/-- The ```json fence is found at position 0 of the wrapped text. -/
theorem pyFind_wrapJson_tag (t : List Char) :
    pyFind (wrapJson t) "```json".toList 0 = 0 := by
  unfold pyFind
  rw [List.drop_zero]
  rw [findFrom_of_head_match _ _ (by
    rw [ List.isPrefixOf_iff_prefix, wrapJson_decomp]
    exact List.prefix_append _ _)]
  simp

/-- In the wrapped form of a fence-free text, the closing fence is the
first fence occurrence after the tag. -/
theorem pyFind_wrapJson_close (t : List Char) (hf : findFrom "```".toList t = none) :
    pyFind (wrapJson t) "```".toList 7 = ((t.length + 9 : Nat) : Int) := by
  unfold pyFind
  rw [wrapJson_drop7]
  have hstep : findFrom "```".toList ('\n' :: (t ++ '\n' :: "```".toList))
      = some (t.length + 2) := by
    simp only [findFrom, show "```".toList.isPrefixOf ('\n' :: (t ++ '\n' :: "```".toList)) = false
      from rfl]
    rw [findFrom_fence_marker t hf]
    rfl
  rw [hstep]
  show ((7 + (t.length + 2) : Nat) : Int) = ((t.length + 9 : Nat) : Int)
  omega

/-- Slicing the wrapped text between the tag and the closing fence
recovers the text surrounded by the two added newlines. -/
theorem pySlice_wrapJson (t : List Char) :
    pySlice (wrapJson t) 7 ((t.length + 9 : Nat) : Int) = '\n' :: (t ++ ['\n']) := by
  simp only [pySlice]
  have hb : ¬ (((t.length + 9 : Nat) : Int) < 0) := by omega
  rw [if_neg hb]
  have hlen : (wrapJson t).length = t.length + 12 := by
    show ("```json\n".toList ++ t ++ "\n```".toList).length = _
    simp
  have hmin : min ((t.length + 9 : Nat) : Int).toNat (wrapJson t).length = t.length + 9 := by
    rw [hlen]
    omega
  rw [hmin]
  rw [show t.length + 9 = 7 + (t.length + 2) by omega, ← List.take_drop]
  rw [wrapJson_drop7]
  rw [show t.length + 2 = (t.length + 1) + 1 by omega]
  rw [List.take_succ_cons]
  rw [show t ++ '\n' :: "```".toList = (t ++ ['\n']) ++ "```".toList by simp]
  rw [List.take_left' (by simp)]

/-- Claim C6 as amended: for every response text that contains no ```
fence marker and on which `json.loads` is insensitive to stripping the
surrounding whitespace — automatic for every JSON text, since
`json.loads` ignores surrounding whitespace, and checkable by
evaluation — normalizing the ```json-wrapped form and normalizing the
bare text produce the same parsed result, and fail together.  In
particular whitespace-padded fence-free JSON texts are covered.  The
equivalence genuinely breaks when the text itself contains a fence
marker. -/
theorem c6_fence_wrap_amended (t : List Char)
    (hf : pyFind t "```".toList 0 = -1)
    (hstrip : jsonLoads (pyStrip t) = jsonLoads t) :
    (parse_review (wrapJson t)).toOption = (parse_review t).toOption := by
  have hfn : findFrom "```".toList t = none := by
    unfold pyFind at hf
    rw [List.drop_zero] at hf
    cases hcase : findFrom "```".toList t with
    | none => rfl
    | some i =>
      rw [hcase] at hf
      simp at hf
  have hfn7 : findFrom "```json".toList t = none := by
    rw [show "```json".toList = "```".toList ++ "json".toList from rfl]
    exact findFrom_extend_none _ _ _ hfn
  have hp7 : pyFind t "```json".toList 0 = -1 := by
    unfold pyFind
    rw [List.drop_zero, hfn7]
  have hext_t : extract_json_text t = t := by
    simp only [extract_json_text, hp7, hf]
    norm_num
  have hext_w : extract_json_text (wrapJson t) = pyStrip t := by
    unfold extract_json_text
    rw [pyFind_wrapJson_tag]
    rw [if_pos (by decide)]
    show pyStrip (pySlice (wrapJson t) 7 (pyFind (wrapJson t) "```".toList 7)) = pyStrip t
    rw [pyFind_wrapJson_close t hfn]
    rw [pySlice_wrapJson]
    exact pyStrip_nl_pad t
  unfold parse_review
  rw [hext_t, hext_w, hstrip]
  cases h : jsonLoads t <;> rfl

/-- Witness for C6: the whitespace-padded JSON text ` \x7b\x7d ` is
fence-free and strip-insensitive, and its wrapped and unwrapped
normalizations agree. -/
theorem c6_fence_wrap_amended_witness :
    pyFind " \x7b\x7d ".toList "```".toList 0 = -1
    ∧ jsonLoads (pyStrip " \x7b\x7d ".toList) = jsonLoads " \x7b\x7d ".toList
    ∧ (parse_review (wrapJson " \x7b\x7d ".toList)).toOption
        = (parse_review " \x7b\x7d ".toList).toOption :=
  ⟨rfl, rfl, c6_fence_wrap_amended " \x7b\x7d ".toList rfl rfl⟩
